import Mathlib

/-!
Shallow embedding of `src/certbot/error_handler.py` (the `ErrorHandler`
context manager and the module-level `_SIGNALS` catalog), together with
theorems settling the specification claims about it.

Modelling conventions:
* A cleanup function registered with `register` is abstracted by an
  identifier together with its observable behaviour when invoked:
  it returns normally, raises an ordinary `Exception` (caught by the
  `except Exception` clause of `_call_registered`), or raises a
  `BaseException` that is not an `Exception` (not caught).
* The process-wide signal table (`signal.getsignal` / `signal.signal`)
  is a function from signal numbers to dispositions; `signal.getsignal`
  returning `None` (a handler installed outside Python) is the
  disposition `unreadable`.
* Side effects (invoking a cleanup function, logging, `signal.signal`
  during restoration, `os.kill`) are recorded as an event trace.
* `__exit__` returns `some b` when it returns the boolean `b`, and
  `none` when an uncaught exception escapes it (a `BaseException`
  raised by a cleanup function propagates out of `_call_registered`).
-/

namespace ErrorHandler

/-- Disposition of a signal in the process signal table, as observed by
`signal.getsignal`: `unreadable` is Python's `None` (handler installed
outside of Python), `sigIgn` is `SIG_IGN`, `sigDfl` is `SIG_DFL`,
`pyHandler i` an arbitrary Python-level handler, and `guard` is the
`ErrorHandler._signal_handler` installed by the guard itself. -/
inductive SigDisp where
  | unreadable : SigDisp
  | sigIgn : SigDisp
  | sigDfl : SigDisp
  | pyHandler : Nat → SigDisp
  | guard : SigDisp
deriving DecidableEq, Repr

/-- Observable behaviour of one registered cleanup function when it is
invoked: return normally, raise an ordinary `Exception` (caught by
`_call_registered`), or raise a `BaseException` that is not an
`Exception` (e.g. `KeyboardInterrupt`), which is not caught. -/
inductive FuncBehavior where
  | ok : FuncBehavior
  | raisesExc : FuncBehavior
  | raisesBase : FuncBehavior
deriving DecidableEq, Repr

/-- A registered cleanup function: an identifier (standing for the
`functools.partial` closure) paired with its behaviour when invoked. -/
structure Func where
  fid : Nat
  behavior : FuncBehavior
deriving DecidableEq, Repr

/-- How the protected section of the `with` block ended, i.e. the
`exec_type` argument of `__exit__`: `noExc` is Python's `None`,
`systemExit` is `SystemExit`, `signalExit` is `errors.SignalExit`
(the synthetic signal-interrupt failure), `other` any other
exception type. -/
inductive ExcType where
  | noExc : ExcType
  | systemExit : ExcType
  | signalExit : ExcType
  | other : ExcType
deriving DecidableEq, Repr

/-- Observable side effects of the guard, in the order they happen. -/
inductive Event where
  | callFunc : Nat → Event            -- `self.funcs[-1]()`
  | logFuncError : Nat → Event        -- `logger.error`/`logger.exception` in `_call_registered`
  | logSignals : Event                -- `logger.debug("Encountered signals: ...")`
  | logException : Event              -- `logger.debug("Encountered exception:...")`
  | logCallingRegistered : Event      -- `logger.debug("Calling registered functions")`
  | setHandler : Nat → SigDisp → Event  -- `signal.signal(signum, handler)` during restoration
  | kill : Nat → Event                -- `os.kill(os.getpid(), signum)`
deriving DecidableEq, Repr

/-- State of one `ErrorHandler` instance together with the process
signal table it manipulates. Fields mirror the Python attributes
`body_executed`, `funcs`, `prev_handlers`, `received_signals`;
`table` is the process-wide signal table. -/
structure GuardState where
  body_executed : Bool
  funcs : List Func
  prev_handlers : List (Nat × SigDisp)
  received_signals : List Nat
  table : Nat → SigDisp

/-- Python dict assignment `d[k] = v` on an insertion-ordered dict
represented as an association list: overwrite in place when the key is
present, append otherwise. -/
def dictInsert (k : Nat) (v : SigDisp) (d : List (Nat × SigDisp)) :
    List (Nat × SigDisp) :=
  if d.any (fun p => p.1 = k) then
    d.map (fun p => if p.1 = k then (k, v) else p)
  else d ++ [(k, v)]

/-- `ErrorHandler.__init__(self, func=None, *args, **kwargs)`:
`body_executed = False`, empty `funcs`, `prev_handlers`,
`received_signals`; if a function is given it is registered. -/
def ehInit (f : Option Func) (table : Nat → SigDisp) : GuardState :=
  { body_executed := false
    funcs := f.toList
    prev_handlers := []
    received_signals := []
    table := table }

/-- `ErrorHandler.register(self, func, *args, **kwargs)`: append the
bound closure to `self.funcs`. -/
def register (f : Func) (s : GuardState) : GuardState :=
  { s with funcs := s.funcs ++ [f] }

/-- `ErrorHandler._set_signal_handlers`: for each signal in the
catalog, read its current handler; if it is not `None`, save it in
`prev_handlers` and install the guard's `_signal_handler`. -/
def setSignalHandlers (sigs : List Nat) (s : GuardState) : GuardState :=
  match sigs with
  | [] => s
  | signum :: rest =>
    let prev_handler := s.table signum
    if prev_handler = SigDisp.unreadable then setSignalHandlers rest s
    else
      setSignalHandlers rest
        { s with
          prev_handlers := dictInsert signum prev_handler s.prev_handlers
          table := Function.update s.table signum SigDisp.guard }

/-- `ErrorHandler.__enter__`: reset `body_executed` to `False` and
install the signal handlers. -/
def ehEnter (sigs : List Nat) (s : GuardState) : GuardState :=
  setSignalHandlers sigs { s with body_executed := false }

/-- The loop of `ErrorHandler._call_registered`, acting on the reversed
`funcs` list (the Python loop repeatedly invokes `self.funcs[-1]()` and
then pops it). Returns the reversed remaining list, the event trace,
and whether an uncaught `BaseException` escaped the loop. When the
invoked function raises a non-`Exception` `BaseException`, the
`self.funcs.pop()` after the `try` statement is not reached, so the
function stays in the list and the loop is abandoned. -/
def callRegisteredRev : List Func → List Func × List Event × Bool
  | [] => ([], [], false)
  | f :: rest =>
    match f.behavior with
    | FuncBehavior.raisesBase => (f :: rest, [Event.callFunc f.fid], true)
    | FuncBehavior.raisesExc =>
      let r := callRegisteredRev rest
      (r.1, Event.callFunc f.fid :: Event.logFuncError f.fid :: r.2.1, r.2.2)
    | FuncBehavior.ok =>
      let r := callRegisteredRev rest
      (r.1, Event.callFunc f.fid :: r.2.1, r.2.2)

/-- `ErrorHandler._call_registered`: log, then invoke the registered
functions last-in-first-out, catching `Exception` (logged and
swallowed) but not other `BaseException`s. -/
def callRegistered (s : GuardState) : GuardState × List Event × Bool :=
  let r := callRegisteredRev s.funcs.reverse
  ({ s with funcs := r.1.reverse },
   Event.logCallingRegistered :: r.2.1,
   r.2.2)

/-- `ErrorHandler._reset_signal_handlers`: restore every saved handler
(iterating `prev_handlers` in insertion order), then clear
`prev_handlers`. -/
def resetSignalHandlers (s : GuardState) : GuardState × List Event :=
  ({ s with
     table := s.prev_handlers.foldl
       (fun t p => Function.update t p.1 p.2) s.table
     prev_handlers := [] },
   s.prev_handlers.map (fun p => Event.setHandler p.1 p.2))

/-- `ErrorHandler._call_signals`: re-deliver every deferred signal via
`os.kill`, in arrival order. Note: `received_signals` is not cleared. -/
def callSignals (s : GuardState) : List Event :=
  s.received_signals.map Event.kill

/-- `ErrorHandler._signal_handler`: append the signal to
`received_signals`; the returned boolean is whether
`errors.SignalExit` is raised (`True` exactly when `body_executed`
is `False`). -/
def signalHandler (signum : Nat) (s : GuardState) : GuardState × Bool :=
  ({ s with received_signals := s.received_signals ++ [signum] },
   !s.body_executed)

/-- `ErrorHandler.__exit__(self, exec_type, exec_value, trace)`.
Returns the new state, the event trace, and `some retval` when the
method returns, `none` when a `BaseException` raised by a cleanup
function escapes it. -/
def ehExit (et : ExcType) (s : GuardState) :
    GuardState × List Event × Option Bool :=
  let s1 := { s with body_executed := true }
  if et = ExcType.noExc ∨ et = ExcType.systemExit then
    (s1, [], some false)
  else
    let retval := decide (et = ExcType.signalExit)
    let logEv := if et = ExcType.signalExit then Event.logSignals
                 else Event.logException
    let c := callRegistered s1
    if c.2.2 then
      -- a BaseException escaped `_call_registered`; neither
      -- `_reset_signal_handlers` nor `_call_signals` runs
      (c.1, logEv :: c.2.1, none)
    else
      let r := resetSignalHandlers c.1
      (r.1, logEv :: (c.2.1 ++ r.2 ++ callSignals r.1), some retval)

/-! Module-level `_SIGNALS` catalog. Concrete Linux signal numbers. -/

def SIGHUP : Nat := 1
def SIGQUIT : Nat := 3
def SIGTERM : Nat := 15
def SIGXCPU : Nat := 24
def SIGXFSZ : Nat := 25

/-- The module-level `_SIGNALS` catalog: starts as `[signal.SIGTERM]`;
when `os.name != "nt"`, each of `SIGHUP`, `SIGQUIT`, `SIGXCPU`,
`SIGXFSZ` whose disposition at module-import time is not `SIG_IGN` is
appended, in that order. `getsig` is `signal.getsignal` at
module-import time. -/
def computeSIGNALS (osIsNt : Bool) (getsig : Nat → SigDisp) : List Nat :=
  let base := [SIGTERM]
  if osIsNt then base
  else
    base ++ ([SIGHUP, SIGQUIT, SIGXCPU, SIGXFSZ].filter
      (fun c => getsig c ≠ SigDisp.sigIgn))

/-! Helpers for stating trace properties. -/

/-- The cleanup-function invocations recorded in a trace, in order. -/
def calledIds (evs : List Event) : List Nat :=
  evs.filterMap (fun e =>
    match e with
    | Event.callFunc i => some i
    | _ => none)

/-- The `os.kill` re-deliveries recorded in a trace, in order. -/
def killedSignals (evs : List Event) : List Nat :=
  evs.filterMap (fun e =>
    match e with
    | Event.kill i => some i
    | _ => none)

/-- Whether an event is a `signal.signal` restoration call. -/
def isRestore : Event → Bool
  | Event.setHandler _ _ => true
  | _ => false

/-- Whether an event is an `os.kill` re-delivery. -/
def isKill : Event → Bool
  | Event.kill _ => true
  | _ => false

/-! Helper lemmas (shared by several claim theorems below). -/

theorem calledIds_append (l1 l2 : List Event) :
    calledIds (l1 ++ l2) = calledIds l1 ++ calledIds l2 := by
  simp [calledIds]

theorem killedSignals_append (l1 l2 : List Event) :
    killedSignals (l1 ++ l2) = killedSignals l1 ++ killedSignals l2 := by
  simp [killedSignals]

theorem calledIds_setHandler_map (l : List (Nat × SigDisp)) :
    calledIds (l.map fun p => Event.setHandler p.1 p.2) = [] := by
  induction l with
  | nil => rfl
  | cons a rest ih => simp [calledIds] at ih ⊢

theorem calledIds_kill_map (l : List Nat) :
    calledIds (l.map Event.kill) = [] := by
  induction l with
  | nil => rfl
  | cons a rest ih => simp [calledIds] at ih ⊢

theorem killedSignals_setHandler_map (l : List (Nat × SigDisp)) :
    killedSignals (l.map fun p => Event.setHandler p.1 p.2) = [] := by
  induction l with
  | nil => rfl
  | cons a rest ih => simp [killedSignals] at ih ⊢

theorem killedSignals_kill_map (l : List Nat) :
    killedSignals (l.map Event.kill) = l := by
  induction l with
  | nil => rfl
  | cons a rest ih => simpa [killedSignals] using ih

/-- When no registered function raises a non-`Exception` `BaseException`,
the `_call_registered` loop (on the reversed list) drains the whole
list, does not escape, invokes the functions in list order, and emits
no restoration or re-delivery events. -/
theorem callRegisteredRev_no_base (l : List Func)
    (h : ∀ f ∈ l, f.behavior ≠ FuncBehavior.raisesBase) :
    (callRegisteredRev l).1 = [] ∧
    (callRegisteredRev l).2.2 = false ∧
    calledIds (callRegisteredRev l).2.1 = l.map Func.fid ∧
    ∀ e ∈ (callRegisteredRev l).2.1, isRestore e = false ∧ isKill e = false := by
  induction l with
  | nil => simp [callRegisteredRev, calledIds]
  | cons f rest ih =>
    have hf := h f (List.mem_cons_self f rest)
    have hrest : ∀ g ∈ rest, g.behavior ≠ FuncBehavior.raisesBase :=
      fun g hg => h g (List.mem_cons_of_mem f hg)
    obtain ⟨h1, h2, h3, h4⟩ := ih hrest
    cases hb : f.behavior with
    | raisesBase => exact absurd hb hf
    | ok =>
      refine ⟨?_, ?_, ?_, ?_⟩
      · simpa [callRegisteredRev, hb] using h1
      · simpa [callRegisteredRev, hb] using h2
      · simpa [callRegisteredRev, hb, calledIds] using h3
      · intro e he
        simp only [callRegisteredRev, hb, List.mem_cons] at he
        rcases he with he | he
        · subst he; exact ⟨rfl, rfl⟩
        · exact h4 e he
    | raisesExc =>
      refine ⟨?_, ?_, ?_, ?_⟩
      · simpa [callRegisteredRev, hb] using h1
      · simpa [callRegisteredRev, hb] using h2
      · simpa [callRegisteredRev, hb, calledIds] using h3
      · intro e he
        simp only [callRegisteredRev, hb, List.mem_cons] at he
        rcases he with he | he | he
        · subst he; exact ⟨rfl, rfl⟩
        · subst he; exact ⟨rfl, rfl⟩
        · exact h4 e he

/-- When the functions after the last-registered `BaseException`-raising
one (i.e. those invoked before it) are benign, the `_call_registered`
loop invokes them, then invokes the raiser, and stops: the raiser and
everything below it stay in the list and the exception escapes. -/
theorem callRegisteredRev_base (a b : List Func) (f : Func)
    (ha : ∀ g ∈ a, g.behavior ≠ FuncBehavior.raisesBase)
    (hf : f.behavior = FuncBehavior.raisesBase) :
    (callRegisteredRev (a ++ f :: b)).1 = f :: b ∧
    (callRegisteredRev (a ++ f :: b)).2.2 = true ∧
    calledIds (callRegisteredRev (a ++ f :: b)).2.1 = a.map Func.fid ++ [f.fid] ∧
    killedSignals (callRegisteredRev (a ++ f :: b)).2.1 = [] := by
  induction a with
  | nil =>
    refine ⟨?_, ?_, ?_, ?_⟩ <;> simp [callRegisteredRev, hf, calledIds, killedSignals]
  | cons g rest ih =>
    have hg := ha g (List.mem_cons_self g rest)
    have hrest : ∀ x ∈ rest, x.behavior ≠ FuncBehavior.raisesBase :=
      fun x hx => ha x (List.mem_cons_of_mem g hx)
    obtain ⟨h1, h2, h3, h4⟩ := ih hrest
    cases hb : g.behavior with
    | raisesBase => exact absurd hb hg
    | ok =>
      refine ⟨?_, ?_, ?_, ?_⟩
      · simpa [callRegisteredRev, hb] using h1
      · simpa [callRegisteredRev, hb] using h2
      · simpa [callRegisteredRev, hb, calledIds] using h3
      · simpa [callRegisteredRev, hb, killedSignals] using h4
    | raisesExc =>
      refine ⟨?_, ?_, ?_, ?_⟩
      · simpa [callRegisteredRev, hb] using h1
      · simpa [callRegisteredRev, hb] using h2
      · simpa [callRegisteredRev, hb, calledIds] using h3
      · simpa [callRegisteredRev, hb, killedSignals] using h4

theorem setSignalHandlers_received (sigs : List Nat) (s : GuardState) :
    (setSignalHandlers sigs s).received_signals = s.received_signals := by
  induction sigs generalizing s with
  | nil => rfl
  | cons a rest ih =>
    simp only [setSignalHandlers]
    split
    · exact ih s
    · exact ih _

/-- Unfolding of `__exit__` in the two exceptional cases that run
cleanup (`SignalExit` and any other non-`SystemExit` exception). -/
theorem ehExit_exceptional (s : GuardState) (et : ExcType)
    (hexc : et = ExcType.signalExit ∨ et = ExcType.other) :
    ehExit et s =
      (let s1 : GuardState := { s with body_executed := true }
       let logEv := if et = ExcType.signalExit then Event.logSignals
                    else Event.logException
       let c := callRegistered s1
       if c.2.2 then (c.1, logEv :: c.2.1, none)
       else
         let r := resetSignalHandlers c.1
         (r.1, logEv :: (c.2.1 ++ r.2 ++ callSignals r.1),
          some (decide (et = ExcType.signalExit)))) := by
  rcases hexc with h | h <;> subst h <;> rfl

/-- Normal form of an exceptional `__exit__` when no cleanup function
raises an uncaught `BaseException`: all functions are drained, saved
handlers are restored and cleared, deferred signals are re-delivered
in arrival order (and not cleared), and the boolean return value is
whether the exception was `SignalExit`. -/
theorem ehExit_no_base (s : GuardState) (et : ExcType)
    (hexc : et = ExcType.signalExit ∨ et = ExcType.other)
    (hnb : ∀ f ∈ s.funcs, f.behavior ≠ FuncBehavior.raisesBase) :
    (ehExit et s).1.funcs = [] ∧
    (ehExit et s).1.prev_handlers = [] ∧
    (ehExit et s).1.received_signals = s.received_signals ∧
    (ehExit et s).2.2 = some (decide (et = ExcType.signalExit)) ∧
    (ehExit et s).2.1 =
      ((if et = ExcType.signalExit then Event.logSignals
        else Event.logException)
          :: (callRegistered { s with body_executed := true }).2.1)
        ++ s.prev_handlers.map (fun p => Event.setHandler p.1 p.2)
        ++ s.received_signals.map Event.kill := by
  have hnb' : ∀ f ∈ s.funcs.reverse, f.behavior ≠ FuncBehavior.raisesBase :=
    fun f hf => hnb f (List.mem_reverse.mp hf)
  obtain ⟨h1, h2, h3, h4⟩ := callRegisteredRev_no_base s.funcs.reverse hnb'
  rcases hexc with h | h <;> subst h <;>
    refine ⟨?_, ?_, ?_, ?_, ?_⟩ <;>
    simp [ehExit, callRegistered, resetSignalHandlers, callSignals, h1, h2]

theorem calledIds_cons_logSignals (l : List Event) :
    calledIds (Event.logSignals :: l) = calledIds l := rfl

theorem calledIds_cons_logException (l : List Event) :
    calledIds (Event.logException :: l) = calledIds l := rfl

theorem calledIds_cons_logCalling (l : List Event) :
    calledIds (Event.logCallingRegistered :: l) = calledIds l := rfl

theorem killedSignals_cons_logSignals (l : List Event) :
    killedSignals (Event.logSignals :: l) = killedSignals l := rfl

theorem killedSignals_cons_logException (l : List Event) :
    killedSignals (Event.logException :: l) = killedSignals l := rfl

theorem killedSignals_cons_logCalling (l : List Event) :
    killedSignals (Event.logCallingRegistered :: l) = killedSignals l := rfl

/-- In an exceptional `__exit__` with no uncaught `BaseException`, the
cleanup invocations recorded in the trace are exactly the registered
functions in reverse registration order. -/
theorem ehExit_calledIds (s : GuardState) (et : ExcType)
    (hexc : et = ExcType.signalExit ∨ et = ExcType.other)
    (hnb : ∀ f ∈ s.funcs, f.behavior ≠ FuncBehavior.raisesBase) :
    calledIds (ehExit et s).2.1 = (s.funcs.map Func.fid).reverse := by
  have hnb' : ∀ f ∈ s.funcs.reverse, f.behavior ≠ FuncBehavior.raisesBase :=
    fun f hf => hnb f (List.mem_reverse.mp hf)
  obtain ⟨q1, q2, q3, q4⟩ := callRegisteredRev_no_base s.funcs.reverse hnb'
  obtain ⟨h1, h2, h3, h4, h5⟩ := ehExit_no_base s et hexc hnb
  rw [h5, calledIds_append, calledIds_append, calledIds_setHandler_map,
    calledIds_kill_map, List.append_nil, List.append_nil]
  rcases hexc with h | h <;> subst h
  · rw [if_pos rfl, calledIds_cons_logSignals]
    show calledIds (Event.logCallingRegistered :: _) = _
    rw [calledIds_cons_logCalling]
    show calledIds (callRegisteredRev s.funcs.reverse).2.1 = _
    rw [q3, List.map_reverse]
  · rw [if_neg (by simp), calledIds_cons_logException]
    show calledIds (Event.logCallingRegistered :: _) = _
    rw [calledIds_cons_logCalling]
    show calledIds (callRegisteredRev s.funcs.reverse).2.1 = _
    rw [q3, List.map_reverse]

theorem killedSignals_eq_nil (l : List Event) :
    (∀ e ∈ l, isKill e = false) → killedSignals l = [] := by
  induction l with
  | nil => intro _; rfl
  | cons e rest ih =>
    intro h
    have he := h e (List.mem_cons_self e rest)
    have ihr := ih (fun x hx => h x (List.mem_cons_of_mem e hx))
    cases e <;> simp_all [killedSignals, isKill]

/-- In an exceptional `__exit__` with no uncaught `BaseException`, the
`os.kill` re-deliveries recorded in the trace are exactly the deferred
signals, in arrival order. -/
theorem ehExit_killedSignals (s : GuardState) (et : ExcType)
    (hexc : et = ExcType.signalExit ∨ et = ExcType.other)
    (hnb : ∀ f ∈ s.funcs, f.behavior ≠ FuncBehavior.raisesBase) :
    killedSignals (ehExit et s).2.1 = s.received_signals := by
  have hnb' : ∀ f ∈ s.funcs.reverse, f.behavior ≠ FuncBehavior.raisesBase :=
    fun f hf => hnb f (List.mem_reverse.mp hf)
  obtain ⟨q1, q2, q3, q4⟩ := callRegisteredRev_no_base s.funcs.reverse hnb'
  obtain ⟨h1, h2, h3, h4, h5⟩ := ehExit_no_base s et hexc hnb
  have hcr : killedSignals
      (callRegistered { s with body_executed := true }).2.1 = [] := by
    show killedSignals (Event.logCallingRegistered
      :: (callRegisteredRev s.funcs.reverse).2.1) = []
    rw [killedSignals_cons_logCalling]
    exact killedSignals_eq_nil _ (fun e he => (q4 e he).2)
  rw [h5, killedSignals_append, killedSignals_append,
    killedSignals_setHandler_map, killedSignals_kill_map, List.append_nil]
  rcases hexc with h | h <;> subst h
  · rw [if_pos rfl, killedSignals_cons_logSignals, hcr, List.nil_append]
  · rw [if_neg (by simp), killedSignals_cons_logException, hcr, List.nil_append]

/-- When the `_call_registered` loop invokes a function that raises an
ordinary `Exception`, the `except Exception` branch logs it. -/
theorem callRegisteredRev_logs_failure (f : Func)
    (hb : f.behavior = FuncBehavior.raisesExc) (l : List Func) :
    f ∈ l → (∀ g ∈ l, g.behavior ≠ FuncBehavior.raisesBase) →
      Event.logFuncError f.fid ∈ (callRegisteredRev l).2.1 := by
  induction l with
  | nil => intro hmem _; cases hmem
  | cons g rest ih =>
    intro hmem hnb
    rcases List.mem_cons.mp hmem with h | h
    · subst h
      simp [callRegisteredRev, hb]
    · have hin := ih h (fun x hx => hnb x (List.mem_cons_of_mem g hx))
      have hg := hnb g (List.mem_cons_self g rest)
      cases hbg : g.behavior with
      | raisesBase => exact absurd hbg hg
      | ok => simp [callRegisteredRev, hbg, List.mem_cons, hin]
      | raisesExc => simp [callRegisteredRev, hbg, List.mem_cons, hin]

/-! Concrete fixture states used by counterexamples and witnesses. -/

/-- A process signal table where every signal has default disposition. -/
def allDefault : Nat → SigDisp := fun _ => SigDisp.sigDfl

/-- The state of a fresh guard over the all-default signal table right
after entering a scope that intercepts `SIGTERM`. -/
def enteredState : GuardState := ehEnter [SIGTERM] (ehInit none allDefault)

/-- A concrete mid-scope guard state: three registered functions (the
second raises an ordinary `Exception` when invoked), one saved handler,
two deferred signals. -/
def wState : GuardState :=
  { body_executed := false
    funcs := [⟨1, FuncBehavior.ok⟩, ⟨2, FuncBehavior.raisesExc⟩,
              ⟨3, FuncBehavior.ok⟩]
    prev_handlers := [(SIGTERM, SigDisp.sigDfl)]
    received_signals := [SIGTERM, SIGHUP]
    table := Function.update allDefault SIGTERM SigDisp.guard }

/-- Unfolding of an exceptional `__exit__` when an uncaught
`BaseException` escapes the cleanup loop: neither
`_reset_signal_handlers` nor `_call_signals` runs and no boolean is
returned. -/
theorem ehExit_escape (s : GuardState) (et : ExcType)
    (hexc : et = ExcType.signalExit ∨ et = ExcType.other)
    (hesc : (callRegisteredRev s.funcs.reverse).2.2 = true) :
    ehExit et s =
      ({ s with
           body_executed := true
           funcs := (callRegisteredRev s.funcs.reverse).1.reverse },
       (if et = ExcType.signalExit then Event.logSignals
        else Event.logException)
         :: Event.logCallingRegistered
         :: (callRegisteredRev s.funcs.reverse).2.1,
       none) := by
  rcases hexc with h | h <;> subst h <;>
    simp [ehExit, callRegistered, hesc]

/-! The claims. -/

/-- C1 counterexample: for a fresh guard that entered a scope
intercepting `SIGTERM` over an all-default signal table, a clean exit
(`exec_type = None`) returns immediately: the saved `SIGTERM` handler
is not restored, `prev_handlers` stays non-empty and the guard's
handler remains installed in the process table — refuting the claim
that a clean exit still resets signal state. -/
theorem c1_counterexample :
    (ehExit ExcType.noExc enteredState).1.prev_handlers
        = [(SIGTERM, SigDisp.sigDfl)] ∧
    (ehExit ExcType.noExc enteredState).1.prev_handlers ≠ [] ∧
    (ehExit ExcType.noExc enteredState).1.table SIGTERM = SigDisp.guard :=
  ⟨by decide, by decide, by decide⟩

/-- C1 (amended): if the protected section exits cleanly, `__exit__`
runs no cleanup action and returns `False` ("not handled"), but it
does not reset signal state: it only sets `body_executed`, leaving
`prev_handlers`, the installed handlers, `funcs` and
`received_signals` untouched. -/
theorem c1_clean_exit_no_reset (s : GuardState) :
    ehExit ExcType.noExc s
      = ({ s with body_executed := true }, [], some false) := rfl

/-- C2: after an exceptional exit (`SignalExit` or any other
non-`SystemExit` exception), cleanup invokes every registered function
exactly once, in exact reverse-registration order — also when some of
them raise ordinary `Exception`s — and `funcs` is empty afterwards. -/
theorem c2_cleanup_reverse_order (s : GuardState) (et : ExcType)
    (hexc : et = ExcType.signalExit ∨ et = ExcType.other)
    (hnb : ∀ f ∈ s.funcs, f.behavior ≠ FuncBehavior.raisesBase) :
    calledIds (ehExit et s).2.1 = (s.funcs.map Func.fid).reverse ∧
    (ehExit et s).1.funcs = [] :=
  ⟨ehExit_calledIds s et hexc hnb, (ehExit_no_base s et hexc hnb).1⟩

theorem c2_witness :
    calledIds (ehExit ExcType.other wState).2.1
        = (wState.funcs.map Func.fid).reverse ∧
    (ehExit ExcType.other wState).1.funcs = [] :=
  c2_cleanup_reverse_order wState ExcType.other (Or.inr rfl) (by decide)

/-- C6: `__exit__` returns `True` (suppressing the exception) exactly
when the protected section raised `SignalExit`; a clean exit,
`SystemExit`, and any other exception all yield `False`, so the
original outcome propagates unchanged (provided no cleanup function
raises an uncaught `BaseException`). -/
theorem c6_suppress_iff_signal_exit (s : GuardState) (et : ExcType)
    (hnb : ∀ f ∈ s.funcs, f.behavior ≠ FuncBehavior.raisesBase) :
    ((ehExit et s).2.2 = some true ↔ et = ExcType.signalExit) ∧
    ((ehExit et s).2.2 = some false ↔ et ≠ ExcType.signalExit) := by
  cases et with
  | noExc => exact ⟨by simp [ehExit], by simp [ehExit]⟩
  | systemExit => exact ⟨by simp [ehExit], by simp [ehExit]⟩
  | signalExit =>
    obtain ⟨-, -, -, h4, -⟩ := ehExit_no_base s ExcType.signalExit (Or.inl rfl) hnb
    exact ⟨by simp [h4], by simp [h4]⟩
  | other =>
    obtain ⟨-, -, -, h4, -⟩ := ehExit_no_base s ExcType.other (Or.inr rfl) hnb
    exact ⟨by simp [h4], by simp [h4]⟩

theorem c6_witness :
    ((ehExit ExcType.signalExit wState).2.2 = some true
        ↔ ExcType.signalExit = ExcType.signalExit) ∧
    ((ehExit ExcType.signalExit wState).2.2 = some false
        ↔ ExcType.signalExit ≠ ExcType.signalExit) :=
  c6_suppress_iff_signal_exit wState ExcType.signalExit (by decide)

/-- C7: a `SystemExit` exit is treated like a clean exit: `__exit__`
performs no side effect (in particular no cleanup function runs and no
signal state is touched) and returns `False`, so the exception
propagates unchanged to the caller. -/
theorem c7_system_exit_passthrough (s : GuardState) :
    ehExit ExcType.systemExit s
      = ({ s with body_executed := true }, [], some false) := rfl

/-- A first tracked signal (`SIGTERM`) delivered while the protected
section is running (`body_executed = false`). -/
def afterFirstSignal : GuardState × Bool := signalHandler SIGTERM enteredState

/-- A second tracked signal (`SIGHUP`) delivered after `__exit__` has
set `body_executed := true`, i.e. while cleanup is running. -/
def afterSecondSignal : GuardState × Bool :=
  signalHandler SIGHUP { afterFirstSignal.1 with body_executed := true }

/-- C3: `_signal_handler` appends the signal to `received_signals` and
raises `SignalExit` exactly when `body_executed` is still `false`; in
the concrete two-signal scenario, the first signal (arriving during
the section) aborts it, the second (arriving during cleanup) is only
queued, and both are re-delivered in original arrival order after
cleanup. -/
theorem c3_signal_handler_behavior :
    (∀ (s : GuardState) (signum : Nat),
      (signalHandler signum s).1.received_signals
        = s.received_signals ++ [signum]) ∧
    (∀ (s : GuardState) (signum : Nat),
      ((signalHandler signum s).2 = true ↔ s.body_executed = false)) ∧
    afterFirstSignal.2 = true ∧
    afterSecondSignal.2 = false ∧
    killedSignals (ehExit ExcType.signalExit afterSecondSignal.1).2.1
      = [SIGTERM, SIGHUP] := by
  refine ⟨fun s signum => rfl, fun s signum => ?_, by decide, by decide, by decide⟩
  cases hb : s.body_executed <;> simp [signalHandler, hb]

/-- C4: on an exceptional exit the trace decomposes into three strict
phases: first a cleanup phase containing every registered function
invocation (in reverse registration order) and no restoration or
re-delivery event, then the restoration of every saved handler, then
the re-delivery of the deferred signals in arrival order. -/
theorem c4_exit_phase_order (s : GuardState) (et : ExcType)
    (hexc : et = ExcType.signalExit ∨ et = ExcType.other)
    (hnb : ∀ f ∈ s.funcs, f.behavior ≠ FuncBehavior.raisesBase) :
    ∃ cleanupPhase : List Event,
      (ehExit et s).2.1
          = cleanupPhase
            ++ s.prev_handlers.map (fun p => Event.setHandler p.1 p.2)
            ++ s.received_signals.map Event.kill ∧
      (∀ e ∈ cleanupPhase, isRestore e = false ∧ isKill e = false) ∧
      calledIds cleanupPhase = (s.funcs.map Func.fid).reverse := by
  have hnb' : ∀ f ∈ s.funcs.reverse, f.behavior ≠ FuncBehavior.raisesBase :=
    fun f hf => hnb f (List.mem_reverse.mp hf)
  obtain ⟨q1, q2, q3, q4⟩ := callRegisteredRev_no_base s.funcs.reverse hnb'
  obtain ⟨h1, h2, h3, h4, h5⟩ := ehExit_no_base s et hexc hnb
  refine ⟨(if et = ExcType.signalExit then Event.logSignals
      else Event.logException)
    :: (callRegistered { s with body_executed := true }).2.1, h5, ?_, ?_⟩
  · intro e he
    rcases List.mem_cons.mp he with h | h
    · subst h
      rcases hexc with h' | h' <;> subst h' <;> simp [isRestore, isKill]
    · have hm : e ∈ Event.logCallingRegistered
          :: (callRegisteredRev s.funcs.reverse).2.1 := h
      rcases List.mem_cons.mp hm with h' | h'
      · subst h'; exact ⟨rfl, rfl⟩
      · exact q4 e h'
  · rcases hexc with h | h <;> subst h
    · rw [if_pos rfl, calledIds_cons_logSignals]
      show calledIds (Event.logCallingRegistered :: _) = _
      rw [calledIds_cons_logCalling]
      show calledIds (callRegisteredRev s.funcs.reverse).2.1 = _
      rw [q3, List.map_reverse]
    · rw [if_neg (by simp), calledIds_cons_logException]
      show calledIds (Event.logCallingRegistered :: _) = _
      rw [calledIds_cons_logCalling]
      show calledIds (callRegisteredRev s.funcs.reverse).2.1 = _
      rw [q3, List.map_reverse]

theorem c4_witness :
    ∃ cleanupPhase : List Event,
      (ehExit ExcType.signalExit wState).2.1
          = cleanupPhase
            ++ wState.prev_handlers.map (fun p => Event.setHandler p.1 p.2)
            ++ wState.received_signals.map Event.kill ∧
      (∀ e ∈ cleanupPhase, isRestore e = false ∧ isKill e = false) ∧
      calledIds cleanupPhase = (wState.funcs.map Func.fid).reverse :=
  c4_exit_phase_order wState ExcType.signalExit (Or.inl rfl) (by decide)

/-- C5 counterexample state: a guard just past its protected section
with one deferred signal, no registered functions, one saved
handler. -/
def pendingState : GuardState :=
  { body_executed := false
    funcs := []
    prev_handlers := [(SIGTERM, SigDisp.sigDfl)]
    received_signals := [SIGTERM]
    table := Function.update allDefault SIGTERM SigDisp.guard }

/-- C5 counterexample: at an exceptional scope exit the deferred
signal is re-delivered, but `received_signals` is NOT cleared
afterwards — refuting the claim that the sequence is then cleared. -/
theorem c5_counterexample :
    killedSignals (ehExit ExcType.signalExit pendingState).2.1 = [SIGTERM] ∧
    (ehExit ExcType.signalExit pendingState).1.received_signals ≠ [] :=
  ⟨by decide, by decide⟩

/-- C5 (amended): `received_signals` is empty at scope entry of a
fresh guard, and at an exceptional scope exit every entry is
re-delivered exactly once, in original arrival order — but the
sequence is not cleared afterwards. -/
theorem c5_pending_signals (f : Option Func) (t : Nat → SigDisp)
    (sigs : List Nat) (s : GuardState) (et : ExcType)
    (hexc : et = ExcType.signalExit ∨ et = ExcType.other)
    (hnb : ∀ g ∈ s.funcs, g.behavior ≠ FuncBehavior.raisesBase) :
    (ehEnter sigs (ehInit f t)).received_signals = [] ∧
    killedSignals (ehExit et s).2.1 = s.received_signals ∧
    (ehExit et s).1.received_signals = s.received_signals := by
  refine ⟨?_, ehExit_killedSignals s et hexc hnb,
    (ehExit_no_base s et hexc hnb).2.2.1⟩
  show (setSignalHandlers sigs _).received_signals = []
  rw [setSignalHandlers_received]
  rfl

theorem c5_witness :
    (ehEnter [SIGTERM] (ehInit none allDefault)).received_signals = [] ∧
    killedSignals (ehExit ExcType.signalExit wState).2.1
        = wState.received_signals ∧
    (ehExit ExcType.signalExit wState).1.received_signals
        = wState.received_signals :=
  c5_pending_signals none allDefault [SIGTERM] wState ExcType.signalExit
    (Or.inl rfl) (by decide)

/-- C8: a cleanup function that raises an ordinary `Exception` during
cleanup is logged and swallowed: the loop still invokes every
registered function in reverse order (never short-circuits), drains
`funcs`, and `__exit__` returns exactly what it would return with no
cleanup failure — the failure never reaches the caller. -/
theorem c8_cleanup_failure_swallowed (s : GuardState) (et : ExcType)
    (f : Func) (hmem : f ∈ s.funcs)
    (hb : f.behavior = FuncBehavior.raisesExc)
    (hexc : et = ExcType.signalExit ∨ et = ExcType.other)
    (hnb : ∀ g ∈ s.funcs, g.behavior ≠ FuncBehavior.raisesBase) :
    Event.logFuncError f.fid ∈ (ehExit et s).2.1 ∧
    calledIds (ehExit et s).2.1 = (s.funcs.map Func.fid).reverse ∧
    (ehExit et s).1.funcs = [] ∧
    (ehExit et s).2.2 = some (decide (et = ExcType.signalExit)) := by
  obtain ⟨h1, h2, h3, h4, h5⟩ := ehExit_no_base s et hexc hnb
  refine ⟨?_, ehExit_calledIds s et hexc hnb, h1, h4⟩
  have hnb' : ∀ g ∈ s.funcs.reverse, g.behavior ≠ FuncBehavior.raisesBase :=
    fun g hg => hnb g (List.mem_reverse.mp hg)
  have hlog := callRegisteredRev_logs_failure f hb s.funcs.reverse
    (List.mem_reverse.mpr hmem) hnb'
  rw [h5]
  refine List.mem_append.mpr (Or.inl (List.mem_append.mpr (Or.inl ?_)))
  exact List.mem_cons_of_mem _ (List.mem_cons_of_mem _ hlog)

theorem c8_witness :
    Event.logFuncError (2 : Nat) ∈ (ehExit ExcType.other wState).2.1 ∧
    calledIds (ehExit ExcType.other wState).2.1
        = (wState.funcs.map Func.fid).reverse ∧
    (ehExit ExcType.other wState).1.funcs = [] ∧
    (ehExit ExcType.other wState).2.2
        = some (decide (ExcType.other = ExcType.signalExit)) :=
  c8_cleanup_failure_swallowed wState ExcType.other
    ⟨2, FuncBehavior.raisesExc⟩ (by decide) rfl (Or.inr rfl) (by decide)

/-- C9: the `_SIGNALS` catalog always contains `SIGTERM`; on Windows
(`os.name == "nt"`) it is exactly `[SIGTERM]`; on other platforms each
of `SIGHUP`, `SIGQUIT`, `SIGXCPU`, `SIGXFSZ` is in the catalog iff its
disposition at module-import time is not `SIG_IGN`. The catalog is a
module-level value, fixed at import time, which every guard receives
unchanged. -/
theorem c9_signals_catalog (getsig : Nat → SigDisp) :
    (∀ osIsNt : Bool, SIGTERM ∈ computeSIGNALS osIsNt getsig) ∧
    computeSIGNALS true getsig = [SIGTERM] ∧
    (SIGHUP ∈ computeSIGNALS false getsig ↔ getsig SIGHUP ≠ SigDisp.sigIgn) ∧
    (SIGQUIT ∈ computeSIGNALS false getsig ↔ getsig SIGQUIT ≠ SigDisp.sigIgn) ∧
    (SIGXCPU ∈ computeSIGNALS false getsig ↔ getsig SIGXCPU ≠ SigDisp.sigIgn) ∧
    (SIGXFSZ ∈ computeSIGNALS false getsig ↔ getsig SIGXFSZ ≠ SigDisp.sigIgn) := by
  refine ⟨fun b => ?_, rfl, ?_, ?_, ?_, ?_⟩
  · cases b <;>
      simp [computeSIGNALS, SIGTERM, SIGHUP, SIGQUIT, SIGXCPU, SIGXFSZ]
  all_goals
    simp [computeSIGNALS, SIGTERM, SIGHUP, SIGQUIT, SIGXCPU, SIGXFSZ,
      List.mem_filter]

/-- C10 (implicit): if a cleanup function raises a non-`Exception`
`BaseException`, it escapes both `_call_registered` and `__exit__`
(no boolean is returned): the raising function and every
earlier-registered function stay in `funcs` (the earlier ones never
invoked), saved handlers are not restored, and deferred signals are
not re-delivered. -/
theorem c10_base_exception_escapes (s : GuardState) (et : ExcType)
    (f : Func) (pre suf : List Func)
    (hsplit : s.funcs = pre ++ f :: suf)
    (hf : f.behavior = FuncBehavior.raisesBase)
    (hsuf : ∀ g ∈ suf, g.behavior ≠ FuncBehavior.raisesBase)
    (hexc : et = ExcType.signalExit ∨ et = ExcType.other) :
    (ehExit et s).2.2 = none ∧
    (ehExit et s).1.funcs = pre ++ [f] ∧
    calledIds (ehExit et s).2.1 = (suf.map Func.fid).reverse ++ [f.fid] ∧
    (ehExit et s).1.prev_handlers = s.prev_handlers ∧
    killedSignals (ehExit et s).2.1 = [] := by
  have hrev : s.funcs.reverse = suf.reverse ++ f :: pre.reverse := by
    rw [hsplit]; simp
  have hsuf' : ∀ g ∈ suf.reverse, g.behavior ≠ FuncBehavior.raisesBase :=
    fun g hg => hsuf g (List.mem_reverse.mp hg)
  obtain ⟨b1, b2, b3, b4⟩ :=
    callRegisteredRev_base suf.reverse pre.reverse f hsuf' hf
  have hesc : (callRegisteredRev s.funcs.reverse).2.2 = true := by
    rw [hrev]; exact b2
  rw [ehExit_escape s et hexc hesc]
  refine ⟨rfl, ?_, ?_, rfl, ?_⟩
  · show (callRegisteredRev s.funcs.reverse).1.reverse = pre ++ [f]
    rw [hrev, b1]; simp
  · rcases hexc with h | h <;> subst h
    · rw [if_pos rfl, calledIds_cons_logSignals, calledIds_cons_logCalling,
        hrev, b3, List.map_reverse]
    · rw [if_neg (by simp), calledIds_cons_logException,
        calledIds_cons_logCalling, hrev, b3, List.map_reverse]
  · rcases hexc with h | h <;> subst h
    · rw [if_pos rfl, killedSignals_cons_logSignals,
        killedSignals_cons_logCalling, hrev, b4]
    · rw [if_neg (by simp), killedSignals_cons_logException,
        killedSignals_cons_logCalling, hrev, b4]

/-- A guard state whose middle registered function raises an uncaught
`BaseException` when invoked. -/
def baseState : GuardState :=
  { body_executed := false
    funcs := [⟨1, FuncBehavior.ok⟩, ⟨2, FuncBehavior.raisesBase⟩,
              ⟨3, FuncBehavior.ok⟩]
    prev_handlers := [(SIGTERM, SigDisp.sigDfl)]
    received_signals := [SIGTERM]
    table := Function.update allDefault SIGTERM SigDisp.guard }

theorem c10_witness :
    (ehExit ExcType.other baseState).2.2 = none ∧
    (ehExit ExcType.other baseState).1.funcs
        = [⟨1, FuncBehavior.ok⟩] ++ [⟨2, FuncBehavior.raisesBase⟩] ∧
    calledIds (ehExit ExcType.other baseState).2.1
        = (([⟨3, FuncBehavior.ok⟩] : List Func).map Func.fid).reverse
          ++ [(2 : Nat)] ∧
    (ehExit ExcType.other baseState).1.prev_handlers
        = baseState.prev_handlers ∧
    killedSignals (ehExit ExcType.other baseState).2.1 = [] :=
  c10_base_exception_escapes baseState ExcType.other
    ⟨2, FuncBehavior.raisesBase⟩ [⟨1, FuncBehavior.ok⟩]
    [⟨3, FuncBehavior.ok⟩] rfl rfl (by decide) (Or.inr rfl)

end ErrorHandler
